import Mathlib

/-!
# The Python 2 / Python 3 compatibility header `src/include/macros.h`

The header consists of preprocessor directives only.  It is embedded here as
the list of its logical lines (`header`), each directive carrying its
replacement list token by token, together with an executable model of the
part of the C preprocessor the header relies on:

* conditional inclusion (`#if` / `#else` / `#endif`) over the two version
  identifiers `PY_MAJOR_VERSION` and `PY_MINOR_VERSION`,
* object-like and function-like `#define`,
* replacement of one invocation: parameter substitution and the `##`
  operator.

`AS_Matches_Classname` is the one definition of the header with run-time
content; it is also given as a Lean function over a model of the object
header (`ob_type`, `tp_name`) and of NUL-terminated strings.
-/

namespace CompatShim

/-! ## Preprocessor model -/

/-- A preprocessing token, kept as its spelling. -/
abbrev Token := String

/-- One logical line of the header (a backslash-newline continues a line). -/
inductive Line where
  | pragma (text : String)
  | ifGe (ident : String) (k : Nat)
  | ifLt (ident : String) (k : Nat)
  | else_
  | endif
  | defineObj (name : String) (body : List Token)
  | defineFn (name : String) (params : List String) (body : List Token)

/-- A recorded definition: `params = none` for an object-like definition,
`some ps` for a function-like one. -/
structure Definition where
  params : Option (List String)
  body : List Token
deriving DecidableEq, Repr

/-- An open conditional group: whether the enclosing group is being
processed, and whether the branch now open was selected. -/
structure Frame where
  parentActive : Bool
  cond : Bool
deriving DecidableEq, Repr

/-- State of the preprocessor between two lines: the open conditionals
(innermost first) and the definitions recorded so far (latest first). -/
structure PPState where
  stack : List Frame
  defs : List (String × Definition)
deriving DecidableEq, Repr

/-- Lines are processed when every open conditional selected its branch. -/
def PPState.active (st : PPState) : Bool :=
  match st.stack with
  | [] => true
  | f :: _ => f.parentActive && f.cond

/-- Value of an identifier inside `#if`: the two version identifiers come
from the build, every other identifier evaluates to `0`. -/
def versionEnv (major minor : Nat) (ident : String) : Nat :=
  if ident = "PY_MAJOR_VERSION" then major
  else if ident = "PY_MINOR_VERSION" then minor
  else 0

/-- Process one line. -/
def step (env : String → Nat) (st : PPState) : Line → PPState
  | .pragma _ => st
  | .ifGe ident k => { st with stack := ⟨st.active, decide (k ≤ env ident)⟩ :: st.stack }
  | .ifLt ident k => { st with stack := ⟨st.active, decide (env ident < k)⟩ :: st.stack }
  | .else_ =>
    match st.stack with
    | [] => st
    | f :: fs => { st with stack := ⟨f.parentActive, !f.cond⟩ :: fs }
  | .endif => { st with stack := st.stack.tail }
  | .defineObj name body =>
    if st.active then { st with defs := (name, ⟨none, body⟩) :: st.defs } else st
  | .defineFn name params body =>
    if st.active then { st with defs := (name, ⟨some params, body⟩) :: st.defs } else st

/-- Process a whole file starting with no definition. -/
def preprocess (env : String → Nat) (lines : List Line) : PPState :=
  lines.foldl (step env) ⟨[], []⟩

/-- The definition in force for a name, if any. -/
def lookup (defs : List (String × Definition)) (name : String) : Option Definition :=
  match defs with
  | [] => none
  | (n, d) :: rest => if n = name then some d else lookup rest name

/-! ## The header -/

/-- The lines of `src/include/macros.h`, in order. -/
def header : List Line := [
  .pragma "once",
  -- convert python 2.x calls to python 3.x
  .ifGe "PY_MAJOR_VERSION" 3,
    .ifLt "PY_MINOR_VERSION" 7,
      .defineObj "PyString_AsString" ["PyUnicode_AsUTF8"],
    .else_,
      .defineObj "PyString_AsString" ["(", "char", "*", ")", "PyUnicode_AsUTF8"],
      .defineObj "PyEval_InitThreads" ["Py_Initialize"],
    .endif,
  .endif,
  -- define module definition and initialization macros
  .ifGe "PY_MAJOR_VERSION" 3,
    .defineFn "MOD_INIT" ["name"]
      ["PyMODINIT_FUNC", "PyInit_", "##", "name", "(", "void", ")"],
    .defineFn "MOD_DEF" ["ob", "name", "doc", "size", "methods", "clear"]
      ["static", "struct", "PyModuleDef", "moduledef", "=", "\x7b", "PyModuleDef_HEAD_INIT", ",",
       "name", ",",
       "doc", ",",
       "size", ",",
       "methods", ",",
       "NULL", ",",
       "NULL", ",",
       "clear", "\x7d", ";",
       "ob", "=", "PyModule_Create", "(", "&", "moduledef", ")", ";"],
    .defineFn "MOD_SUCCESS_VAL" ["val"] ["val"],
  .else_,
    .defineFn "MOD_INIT" ["name"]
      ["PyMODINIT_FUNC", "init", "##", "name", "(", "void", ")"],
    .defineFn "MOD_DEF" ["ob", "name", "doc", "size", "methods", "clear"]
      ["ob", "=", "Py_InitModule3", "(", "name", ",", "methods", ",", "doc", ")", ";"],
    .defineFn "MOD_SUCCESS_VAL" ["val"] [],
  .endif,
  -- pyval is a PyObject* classname is a string
  .defineFn "AS_Matches_Classname" ["pyval", "classname"]
    ["(", "strcmp", "(", "(", "pyval", ")", "->", "ob_type", "->", "tp_name", ",",
     "(", "classname", ")", ")", "==", "0", ")"]
]

/-- The definitions in force after the header, for a build against the given
version. -/
def table (major minor : Nat) : List (String × Definition) :=
  (preprocess (versionEnv major minor) header).defs

/-! ## Replacement of one invocation -/

/-- What the tokens of a replacement list become during substitution. -/
inductive Item where
  | tok (t : Token)
  | paste
  | placemarker
deriving DecidableEq, Repr

/-- An argument in place of its parameter; an argument without tokens leaves
a placemarker.  Arguments are given as they stand after their own
replacement. -/
def argItems (arg : List Token) : List Item :=
  if arg.isEmpty then [.placemarker] else arg.map .tok

/-- The argument bound to a token of the replacement list, when that token is
a parameter. -/
def argFor : List String → List (List Token) → Token → Option (List Token)
  | p :: ps, a :: as, t => if p = t then some a else argFor ps as t
  | _, _, _ => none

/-- Substitution for one token of the replacement list.  Only a `##` written
in the replacement list is the operator; a `##` that arrives in an argument
is an ordinary token. -/
def substTok (params : List String) (args : List (List Token)) (t : Token) : List Item :=
  if t = "##" then [.paste]
  else
    match argFor params args t with
    | some a => argItems a
    | none => [.tok t]

/-- Result of `lhs ## rhs`. -/
def pasteItems : Item → Item → Item
  | .tok a, .tok b => .tok (a ++ b)
  | .placemarker, b => b
  | a, _ => a

/-- Apply every `##`: the token before the operator is concatenated with the
token after it.  `acc` holds the items already done, last one first;
`pending` says that the last item read was the operator. -/
def applyPaste : List Item → Bool → List Item → List Item
  | acc, _, [] => acc.reverse
  | acc, _, .paste :: rest => applyPaste acc true rest
  | a :: acc, true, x :: rest => applyPaste (pasteItems a x :: acc) false rest
  | acc, _, x :: rest => applyPaste (x :: acc) false rest

/-- The tokens that remain once the placemarkers are dropped. -/
def tokensOf (items : List Item) : List Token :=
  items.filterMap fun
    | .tok t => some t
    | _ => none

/-- Replacement of the invocation `name(args)` of a function-like
definition; `none` when `name` has no function-like definition or the number
of arguments is wrong. -/
def expandCall (defs : List (String × Definition)) (name : String)
    (args : List (List Token)) : Option (List Token) :=
  match lookup defs name with
  | some ⟨some params, body⟩ =>
    if params.length = args.length then
      some (tokensOf (applyPaste [] false (body.flatMap (substTok params args))))
    else none
  | _ => none

/-- Replacement of a name used without arguments: the replacement list of its
object-like definition, or the name itself when it has none. -/
def resolve (defs : List (String × Definition)) (name : Token) : List Token :=
  match lookup defs name with
  | some ⟨none, body⟩ => body
  | _ => [name]

/-- Object-like replacement over a token sequence. -/
def replaceAll (defs : List (String × Definition)) (toks : List Token) : List Token :=
  toks.flatMap (resolve defs)

/-! ## Run-time model: strings, object header, calls into the host runtime -/

/-- Modelled from the spec: the C library function `strcmp`, which the header
calls and does not define.  A string is the list of its bytes (values of
`unsigned char`); the end of the list stands for the terminating NUL and a
zero byte inside the list terminates the string as well.  The two strings are
read in step up to the first difference or the terminator; the result is the
difference of the two bytes read last. -/
def strcmp : List Nat → List Nat → Int
  | a :: s1, b :: s2 => if a ≠ 0 ∧ a = b then strcmp s1 s2 else (a : Int) - (b : Int)
  | a :: _, [] => (a : Int)
  | [], b :: _ => -(b : Int)
  | [], [] => 0

/-- The contents of a string: its bytes before the terminator. -/
def cstr (s : List Nat) : List Nat :=
  s.takeWhile (fun b => b != 0)

/-- Modelled from the spec: the type object of the host runtime, as far as
the header reads it: the registered name `tp_name`, and the base class
`tp_base`, which the header never reads. -/
inductive PyTypeObject where
  | mk (tp_name : List Nat) (tp_base : Option PyTypeObject)

/-- Field `tp_name`. -/
def PyTypeObject.tp_name : PyTypeObject → List Nat
  | .mk n _ => n

/-- Field `tp_base`. -/
def PyTypeObject.tp_base : PyTypeObject → Option PyTypeObject
  | .mk _ b => b

/-- Modelled from the spec: the object header of the host runtime, as far as
the header reads it: the type tag `ob_type`. -/
structure PyObject where
  ob_type : PyTypeObject

/-- The definition of `AS_Matches_Classname(pyval, classname)`:
`(strcmp((pyval)->ob_type->tp_name, (classname)) == 0)`. -/
def AS_Matches_Classname (pyval : PyObject) (classname : List Nat) : Bool :=
  strcmp pyval.ob_type.tp_name classname == 0

/-- Value of a call expression `f ( x )`, possibly under casts `( char * )`.
`host` gives the function behind each name of the host runtime, `env` the
value of each variable.  The call binds tighter than the cast, and a cast
between pointer types leaves the pointer value as it is. -/
def evalCall {α β : Type} (host : String → α → β) (env : String → Option α) :
    List Token → Option β
  | a :: b :: c :: d :: rest =>
    if a = "(" ∧ b = "char" ∧ c = "*" ∧ d = ")" then evalCall host env rest
    else if rest = [] ∧ b = "(" ∧ d = ")" then (env c).map (host a)
    else none
  | _ => none

/-- The call `PyString_AsString(obj)` as extension code writes it, compiled
after this header for the given version, and run with `obj` bound to the
given handle. -/
def callPyString_AsString {α β : Type} (major minor : Nat) (host : String → α → β)
    (obj : α) : Option β :=
  evalCall host (fun v => if v = "obj" then some obj else none)
    (replaceAll (table major minor) ["PyString_AsString", "(", "obj", ")"])

/-- Modelled from the spec: a host object as string extraction sees it: a
textual value with its bytes, or a value that is not textual. -/
inductive HostObject where
  | text (content : List Nat)
  | other
deriving DecidableEq, Repr

/-- Modelled from the spec: string extraction in the host runtime: "given an
opaque host object handle believed to hold a textual value, return a
read-only byte sequence (null-terminated) representing its contents"; "if the
handle does not reference a textual value, the underlying host-runtime call
fails" (`none` is the NULL result). -/
def hostExtract : HostObject → Option (List Nat)
  | .text s => some (s ++ [0])
  | .other => none

/-- Modelled from the spec: the extraction calls the host runtime offers:
`PyUnicode_AsUTF8` in the modern family (major version 3 and later), the
native `PyString_AsString` in the legacy family; any other name has no
function behind it and gives no buffer. -/
def hostRuntime (major : Nat) (f : String) (obj : HostObject) : Option (List Nat) :=
  if (3 ≤ major ∧ f = "PyUnicode_AsUTF8") ∨ (major < 3 ∧ f = "PyString_AsString") then
    hostExtract obj
  else none

/-! ## The module-description record -/

/-- Modelled from the spec: the fields of the host runtime's
module-description record `struct PyModuleDef`, in declaration order (the
sixth field is called `m_reload` by the oldest 3.x releases). -/
def PyModuleDef_fields : List String :=
  ["m_base", "m_name", "m_doc", "m_size", "m_methods", "m_slots", "m_traverse", "m_clear",
   "m_free"]

/-- Split a token sequence at its commas. -/
def splitCommas : List Token → List (List Token)
  | [] => [[]]
  | t :: rest =>
    if t = "," then [] :: splitCommas rest
    else
      match splitCommas rest with
      | [] => [[t]]
      | g :: gs => (t :: g) :: gs

/-- The initialisers of the first brace-enclosed initialiser list of a
declaration. -/
def recordInitialisers (toks : List Token) : List (List Token) :=
  splitCommas (((toks.dropWhile (fun t => t != "\x7b")).drop 1).takeWhile (fun t => t != "\x7d"))

/-- Positional initialisation: the initialiser a field receives, `none` for a
field left to zero-initialisation. -/
def fieldInit : List String → List (List Token) → String → Option (List Token)
  | f :: fs, i :: is, name => if f = name then some i else fieldInit fs is name
  | _, _, _ => none

/-- An argument that is one expression without a comma or a brace of its
own. -/
def PlainArg (a : List Token) : Prop :=
  a ≠ [] ∧ "," ∉ a ∧ "\x7b" ∉ a ∧ "\x7d" ∉ a

instance (a : List Token) : Decidable (PlainArg a) := by
  unfold PlainArg; infer_instance

/-! ## Names used by the statements -/

/-- The replacement list of `PyString_AsString` in the branch for a minor
version below 7. -/
def formPlain : List Token := ["PyUnicode_AsUTF8"]

/-- The replacement list of `PyString_AsString` in the other branch. -/
def formCast : List Token := ["(", "char", "*", ")", "PyUnicode_AsUTF8"]

/-- The tokens of the cast to a byte string. -/
def castTokens : List Token := ["(", "char", "*", ")"]

/-- The name of the function that `MOD_INIT(n)` declares: the second token of
the replacement, after `PyMODINIT_FUNC`. -/
def entryPointName (major minor : Nat) (n : String) : Option Token :=
  (expandCall (table major minor) "MOD_INIT" [[n]]).bind fun toks => toks[1]?

/-- The bytes of `Foo`. -/
def nameFoo : List Nat := [70, 111, 111]

/-- The bytes of `Bar`. -/
def nameBar : List Nat := [66, 97, 114]

/-- The bytes of `Base`. -/
def nameBase : List Nat := [66, 97, 115, 101]

/-- The bytes of `hello`. -/
def bytesHello : List Nat := [104, 101, 108, 108, 111]

/-- An instance of a class `Foo` derived from a class `Base`. -/
def fooObject : PyObject :=
  ⟨.mk nameFoo (some (.mk nameBase none))⟩

/-! ## Lemmas -/

theorem table_modern_early (major minor : Nat) (h3 : 3 ≤ major) (h7 : minor < 7) :
    table major minor = table 3 0 := by
  simp [table, preprocess, header, step, versionEnv, PPState.active, h3, h7]

theorem table_modern_late (major minor : Nat) (h3 : 3 ≤ major) (h7 : 7 ≤ minor) :
    table major minor = table 3 7 := by
  have h7n : ¬ minor < 7 := by omega
  simp [table, preprocess, header, step, versionEnv, PPState.active, h3, h7, h7n]

theorem table_legacy (major minor : Nat) (h3 : major < 3) :
    table major minor = table 2 0 := by
  have h3n : ¬ 3 ≤ major := by omega
  simp [table, preprocess, header, step, versionEnv, PPState.active, h3, h3n]

theorem applyPaste_of_no_paste (items : List Item) :
    ∀ acc : List Item, Item.paste ∉ items →
      applyPaste acc false items = acc.reverse ++ items := by
  induction items with
  | nil => intro acc _; simp [applyPaste]
  | cons x rest ih =>
    intro acc h
    have hx : x ≠ Item.paste := fun e => h (by simp [e])
    have hr : Item.paste ∉ rest := fun e => h (by simp [e])
    cases x with
    | paste => exact absurd rfl hx
    | tok t => simp [applyPaste, ih _ hr]
    | placemarker => simp [applyPaste, ih _ hr]

theorem tokensOf_append (xs ys : List Item) :
    tokensOf (xs ++ ys) = tokensOf xs ++ tokensOf ys := by
  simp [tokensOf]

theorem tokensOf_cons_tok (t : Token) (xs : List Item) :
    tokensOf (.tok t :: xs) = t :: tokensOf xs := by
  simp [tokensOf]

theorem tokensOf_nil : tokensOf [] = [] := rfl

theorem tokensOf_argItems (a : List Token) : tokensOf (argItems a) = a := by
  cases a with
  | nil => simp [argItems, tokensOf]
  | cons t ts =>
    simp only [argItems, tokensOf, List.isEmpty_cons, Bool.false_eq_true, if_false]
    rw [List.filterMap_map]
    have : ((fun x : Item => match x with | .tok t => some t | _ => none) ∘ Item.tok) = some := by
      funext x; rfl
    simp [this]

theorem paste_not_mem_argItems (a : List Token) : Item.paste ∉ argItems a := by
  unfold argItems
  split <;> simp

theorem expandCall_MOD_DEF_modern (ob name doc size methods clear : List Token) :
    expandCall (table 3 0) "MOD_DEF" [ob, name, doc, size, methods, clear] =
      some (["static", "struct", "PyModuleDef", "moduledef", "=", "\x7b",
             "PyModuleDef_HEAD_INIT", ","] ++ name ++ [","] ++ doc ++ [","] ++ size ++ [","] ++
            methods ++ [",", "NULL", ",", "NULL", ","] ++ clear ++ ["\x7d", ";"] ++ ob ++
            ["=", "PyModule_Create", "(", "&", "moduledef", ")", ";"]) := by
  have hl : lookup (table 3 0) "MOD_DEF" =
      some ⟨some ["ob", "name", "doc", "size", "methods", "clear"],
      ["static", "struct", "PyModuleDef", "moduledef", "=", "\x7b", "PyModuleDef_HEAD_INIT", ",",
       "name", ",",
       "doc", ",",
       "size", ",",
       "methods", ",",
       "NULL", ",",
       "NULL", ",",
       "clear", "\x7d", ";",
       "ob", "=", "PyModule_Create", "(", "&", "moduledef", ")", ";"]⟩ := by decide
  simp only [expandCall, hl]
  simp [substTok, argFor, List.flatMap]
  rw [applyPaste_of_no_paste]
  · simp [tokensOf_append, tokensOf_cons_tok, tokensOf_argItems, tokensOf_nil]
  · simp [paste_not_mem_argItems]

theorem strcmp_eq_zero_iff (s1 : List Nat) :
    ∀ s2 : List Nat, strcmp s1 s2 = 0 ↔ cstr s1 = cstr s2 := by
  induction s1 with
  | nil =>
    intro s2
    cases s2 with
    | nil => simp [strcmp, cstr]
    | cons b s2 =>
      by_cases hb : b = 0
      · simp [strcmp, cstr, hb]
      · simp [strcmp, cstr, hb]
  | cons a s1 ih =>
    intro s2
    cases s2 with
    | nil =>
      by_cases ha : a = 0
      · simp [strcmp, cstr, ha]
      · simp [strcmp, cstr, ha]
    | cons b s2 =>
      by_cases hab : a = b
      · subst hab
        by_cases ha : a = 0
        · simp [strcmp, cstr, ha]
        · have := ih s2
          simp [strcmp, cstr, ha, List.takeWhile_cons] at this ⊢
          exact this
      · have hne : (a : Int) - (b : Int) ≠ 0 := by omega
        by_cases ha : a = 0
        · have hb : b ≠ 0 := fun e => hab (by omega)
          simp [strcmp, cstr, ha, hb, hab, hne, List.takeWhile_cons]
        · by_cases hb : b = 0
          · simp [strcmp, cstr, ha, hb, hab, hne, List.takeWhile_cons]
          · simp [strcmp, cstr, ha, hb, hab, hne, List.takeWhile_cons]

theorem cstr_of_no_nul (s : List Nat) (h : 0 ∉ s) : cstr s = s := by
  induction s with
  | nil => rfl
  | cons a s ih =>
    have ha : a ≠ 0 := fun e => h (by simp [e])
    have hs : 0 ∉ s := fun e => h (by simp [e])
    simp [cstr, List.takeWhile_cons, ha]
    intro x hx e
    exact hs (e ▸ hx)

theorem cstr_append_nul (s : List Nat) (h : 0 ∉ s) : cstr (s ++ [0]) = s := by
  induction s with
  | nil => simp [cstr]
  | cons a s ih =>
    have ha : a ≠ 0 := fun e => h (by simp [e])
    have hs : 0 ∉ s := fun e => h (by simp [e])
    simp [cstr, List.takeWhile_cons, ha]
    exact ih hs

theorem splitCommas_append_comma (a rest : List Token) (h : "," ∉ a) :
    splitCommas (a ++ "," :: rest) = a :: splitCommas rest := by
  induction a with
  | nil => simp [splitCommas]
  | cons t ts ih =>
    have ht : t ≠ "," := fun e => h (by simp [e])
    have hs : "," ∉ ts := fun e => h (by simp [e])
    simp [splitCommas, ht, ih hs]

theorem splitCommas_of_no_comma (a : List Token) (h : "," ∉ a) : splitCommas a = [a] := by
  induction a with
  | nil => simp [splitCommas]
  | cons t ts ih =>
    have ht : t ≠ "," := fun e => h (by simp [e])
    have hs : "," ∉ ts := fun e => h (by simp [e])
    simp [splitCommas, ht, ih hs]

theorem takeWhile_open_append (a rest : List Token) (h : "\x7d" ∉ a) :
    (a ++ rest).takeWhile (fun t => t != "\x7d") = a ++ rest.takeWhile (fun t => t != "\x7d") := by
  induction a with
  | nil => simp
  | cons t ts ih =>
    have ht : t ≠ "\x7d" := fun e => h (by simp [e])
    have hs : "\x7d" ∉ ts := fun e => h (by simp [e])
    simp [List.takeWhile_cons, ht, ih hs]

theorem recordInitialisers_modern (ob name doc size methods clear : List Token)
    (hn : PlainArg name) (hd : PlainArg doc) (hs : PlainArg size) (hm : PlainArg methods)
    (hc : PlainArg clear) :
    recordInitialisers (["static", "struct", "PyModuleDef", "moduledef", "=", "\x7b",
             "PyModuleDef_HEAD_INIT", ","] ++ name ++ [","] ++ doc ++ [","] ++ size ++ [","] ++
            methods ++ [",", "NULL", ",", "NULL", ","] ++ clear ++ ["\x7d", ";"] ++ ob ++
            ["=", "PyModule_Create", "(", "&", "moduledef", ")", ";"]) =
      [["PyModuleDef_HEAD_INIT"], name, doc, size, methods, ["NULL"], ["NULL"], clear] := by
  obtain ⟨-, hn1, -, hn3⟩ := hn
  obtain ⟨-, hd1, -, hd3⟩ := hd
  obtain ⟨-, hs1, -, hs3⟩ := hs
  obtain ⟨-, hm1, -, hm3⟩ := hm
  obtain ⟨-, hc1, -, hc3⟩ := hc
  simp [recordInitialisers, List.dropWhile_cons, List.takeWhile_cons, takeWhile_open_append,
    hn3, hd3, hs3, hm3, hc3]
  have e : splitCommas ["PyModuleDef_HEAD_INIT"] = [["PyModuleDef_HEAD_INIT"]] := by decide
  have e2 : splitCommas ["NULL"] = [["NULL"]] := by decide
  rw [show "PyModuleDef_HEAD_INIT" :: "," :: (name ++ "," :: (doc ++ "," :: (size ++ "," ::
        (methods ++ "," :: "NULL" :: "," :: "NULL" :: "," :: clear)))) =
      ["PyModuleDef_HEAD_INIT"] ++ "," :: (name ++ "," :: (doc ++ "," :: (size ++ "," ::
        (methods ++ "," :: (["NULL"] ++ "," :: (["NULL"] ++ "," :: clear)))))) from rfl]
  rw [splitCommas_append_comma _ _ (by decide), splitCommas_append_comma _ _ hn1,
    splitCommas_append_comma _ _ hd1, splitCommas_append_comma _ _ hs1,
    splitCommas_append_comma _ _ hm1, splitCommas_append_comma _ _ (by decide),
    splitCommas_append_comma _ _ (by decide), splitCommas_of_no_comma _ hc1]

theorem expandCall_MOD_DEF_legacy (ob name doc size methods clear : List Token) :
    expandCall (table 2 0) "MOD_DEF" [ob, name, doc, size, methods, clear] =
      some (ob ++ ["=", "Py_InitModule3", "("] ++ name ++ [","] ++ methods ++ [","] ++ doc ++
            [")", ";"]) := by
  have hl : lookup (table 2 0) "MOD_DEF" =
      some ⟨some ["ob", "name", "doc", "size", "methods", "clear"],
        ["ob", "=", "Py_InitModule3", "(", "name", ",", "methods", ",", "doc", ")", ";"]⟩ := by
    decide
  simp only [expandCall, hl]
  simp [substTok, argFor, List.flatMap]
  rw [applyPaste_of_no_paste]
  · simp [tokensOf_append, tokensOf_cons_tok, tokensOf_argItems, tokensOf_nil]
  · simp [paste_not_mem_argItems]

theorem expandCall_MOD_SUCCESS_VAL_modern (v : List Token) :
    expandCall (table 3 0) "MOD_SUCCESS_VAL" [v] = some v := by
  have hl : lookup (table 3 0) "MOD_SUCCESS_VAL" = some ⟨some ["val"], ["val"]⟩ := by decide
  simp only [expandCall, hl]
  simp [substTok, argFor, List.flatMap]
  rw [applyPaste_of_no_paste _ _ (paste_not_mem_argItems v)]
  simp [tokensOf_argItems]

theorem expandCall_MOD_SUCCESS_VAL_legacy (v : List Token) :
    expandCall (table 2 0) "MOD_SUCCESS_VAL" [v] = some [] := by
  have hl : lookup (table 2 0) "MOD_SUCCESS_VAL" = some ⟨some ["val"], []⟩ := by decide
  simp only [expandCall, hl]
  simp [List.flatMap, applyPaste, tokensOf]

theorem table_late_eq_early_defs (major minor : Nat) (h3 : 3 ≤ major) :
    lookup (table major minor) "MOD_INIT" = lookup (table 3 0) "MOD_INIT" ∧
    lookup (table major minor) "MOD_DEF" = lookup (table 3 0) "MOD_DEF" ∧
    lookup (table major minor) "MOD_SUCCESS_VAL" = lookup (table 3 0) "MOD_SUCCESS_VAL" := by
  by_cases h7 : minor < 7
  · rw [table_modern_early major minor h3 h7]; exact ⟨rfl, rfl, rfl⟩
  · rw [table_modern_late major minor h3 (by omega)]; decide

theorem expandCall_congr (d1 d2 : List (String × Definition)) (name : String)
    (args : List (List Token)) (h : lookup d1 name = lookup d2 name) :
    expandCall d1 name args = expandCall d2 name args := by
  simp [expandCall, h]

theorem string_append_left_cancel (p a b : String) (h : p ++ a = p ++ b) : a = b := by
  have := congrArg String.data h
  simp only [String.data_append] at this
  exact String.ext (List.append_cancel_left this)

/-! ## The claims -/

/-- C1: for an object whose type has the registered name `t` and a class-name
string `c` (both strings in the sense of C, that is without a zero byte before
the terminator), `AS_Matches_Classname(obj, c)` is true exactly when `t` and
`c` are the same string. -/
theorem AS_Matches_Classname_iff_same_name (pyval : PyObject) (classname : List Nat)
    (ht : 0 ∉ pyval.ob_type.tp_name) (hc : 0 ∉ classname) :
    AS_Matches_Classname pyval classname = true ↔ pyval.ob_type.tp_name = classname := by
  unfold AS_Matches_Classname
  rw [beq_iff_eq, strcmp_eq_zero_iff, cstr_of_no_nul _ ht, cstr_of_no_nul _ hc]

/-- C1 at an object of type `Foo` with base class `Base`: `Foo` matches;
`Bar`, the empty string, the proper prefix `Fo`, the differently-cased `foo`
and the base class name `Base` do not. -/
theorem AS_Matches_Classname_iff_same_name_witness :
    AS_Matches_Classname fooObject nameFoo = true ∧
    AS_Matches_Classname fooObject nameBar = false ∧
    AS_Matches_Classname fooObject [] = false ∧
    AS_Matches_Classname fooObject [70, 111] = false ∧
    AS_Matches_Classname fooObject [102, 111, 111] = false ∧
    fooObject.ob_type.tp_base.map PyTypeObject.tp_name = some nameBase ∧
    AS_Matches_Classname fooObject nameBase = false := by
  have no : ∀ c : List Nat, 0 ∉ c → fooObject.ob_type.tp_name ≠ c →
      AS_Matches_Classname fooObject c = false := fun c hc hne =>
    Bool.eq_false_iff.mpr fun h =>
      hne ((AS_Matches_Classname_iff_same_name fooObject c (by decide) hc).mp h)
  exact ⟨(AS_Matches_Classname_iff_same_name fooObject nameFoo (by decide) (by decide)).mpr rfl,
    no _ (by decide) (by decide), no _ (by decide) (by decide), no _ (by decide) (by decide),
    no _ (by decide) (by decide), rfl, no _ (by decide) (by decide)⟩

/-- C2 as stated fails for a build against version 2.7: the header gives
`PyString_AsString` no definition there, so the name resolves to neither of
the two forms. -/
theorem PyString_AsString_neither_form_at_2_7 :
    lookup (table 2 7) "PyString_AsString" = none ∧
    resolve (table 2 7) "PyString_AsString" = ["PyString_AsString"] ∧
    ¬ (resolve (table 2 7) "PyString_AsString" = formPlain ∨
       resolve (table 2 7) "PyString_AsString" = formCast) := by
  decide

/-- C2, amended: for every version with major at least 3, `PyString_AsString`
resolves to exactly one of the two forms of the header, never both and never
neither; for a major version below 3 the header does not define the name and
it is left as it is. -/
theorem PyString_AsString_exactly_one_form (major minor : Nat) :
    (3 ≤ major →
      (resolve (table major minor) "PyString_AsString" = formPlain ∨
        resolve (table major minor) "PyString_AsString" = formCast) ∧
      ¬ (resolve (table major minor) "PyString_AsString" = formPlain ∧
        resolve (table major minor) "PyString_AsString" = formCast)) ∧
    (major < 3 →
      lookup (table major minor) "PyString_AsString" = none ∧
      resolve (table major minor) "PyString_AsString" = ["PyString_AsString"]) := by
  refine ⟨fun h3 => ?_, fun h3 => ?_⟩
  · by_cases h7 : minor < 7
    · rw [table_modern_early major minor h3 h7]; decide
    · rw [table_modern_late major minor h3 (by omega)]; decide
  · rw [table_legacy major minor h3]; decide

/-- C2, amended, at versions 3.6, 3.7 and 2.7. -/
theorem PyString_AsString_exactly_one_form_witness :
    resolve (table 3 6) "PyString_AsString" = formPlain ∧
    resolve (table 3 7) "PyString_AsString" = formCast ∧
    ((resolve (table 3 7) "PyString_AsString" = formPlain ∨
        resolve (table 3 7) "PyString_AsString" = formCast) ∧
      ¬ (resolve (table 3 7) "PyString_AsString" = formPlain ∧
        resolve (table 3 7) "PyString_AsString" = formCast)) ∧
    (lookup (table 2 7) "PyString_AsString" = none ∧
      resolve (table 2 7) "PyString_AsString" = ["PyString_AsString"]) :=
  ⟨by decide, by decide, (PyString_AsString_exactly_one_form 3 7).1 (by decide),
    (PyString_AsString_exactly_one_form 2 7).2 (by decide)⟩

/-- C3 as stated fails for a build against version 3.6: the header gives
`PyEval_InitThreads` no definition there, so the name stays the single token
it is, and none of the tokens of the byte-string cast occurs in it. -/
theorem PyEval_InitThreads_untouched_at_3_6 :
    lookup (table 3 6) "PyEval_InitThreads" = none ∧
    resolve (table 3 6) "PyEval_InitThreads" = ["PyEval_InitThreads"] ∧
    (resolve (table 3 6) "PyEval_InitThreads").length = 1 ∧
    ∀ t ∈ castTokens, t ∉ resolve (table 3 6) "PyEval_InitThreads" := by
  decide

/-- C3, amended: for major at least 3 and minor at least 7,
`PyEval_InitThreads` resolves to `Py_Initialize`; for major at least 3 and
minor below 7 the header does not define `PyEval_InitThreads`, and the name is
left as it is, without a cast. -/
theorem PyEval_InitThreads_resolution (major minor : Nat) (h3 : 3 ≤ major) :
    (7 ≤ minor → resolve (table major minor) "PyEval_InitThreads" = ["Py_Initialize"]) ∧
    (minor < 7 →
      lookup (table major minor) "PyEval_InitThreads" = none ∧
      resolve (table major minor) "PyEval_InitThreads" = ["PyEval_InitThreads"]) := by
  refine ⟨fun h7 => ?_, fun h7 => ?_⟩
  · rw [table_modern_late major minor h3 h7]; decide
  · rw [table_modern_early major minor h3 h7]; decide

/-- C3, amended, at versions 3.7, 3.11 and 3.6. -/
theorem PyEval_InitThreads_resolution_witness :
    resolve (table 3 7) "PyEval_InitThreads" = ["Py_Initialize"] ∧
    resolve (table 3 11) "PyEval_InitThreads" = ["Py_Initialize"] ∧
    (lookup (table 3 6) "PyEval_InitThreads" = none ∧
      resolve (table 3 6) "PyEval_InitThreads" = ["PyEval_InitThreads"]) :=
  ⟨(PyEval_InitThreads_resolution 3 7 (by decide)).1 (by decide),
    (PyEval_InitThreads_resolution 3 11 (by decide)).1 (by decide),
    (PyEval_InitThreads_resolution 3 6 (by decide)).2 (by decide)⟩

/-- C4: for every module name `n`, `MOD_INIT(n)` is replaced by
`PyMODINIT_FUNC PyInit_n(void)` when the major version is at least 3 and by
`PyMODINIT_FUNC initn(void)` when it is below 3; the declared name is the
fixed beginning concatenated with `n`, and two distinct module names give two
distinct declared names. -/
theorem MOD_INIT_expansion (major minor : Nat) (n : String) :
    (3 ≤ major →
      expandCall (table major minor) "MOD_INIT" [[n]] =
        some ["PyMODINIT_FUNC", "PyInit_" ++ n, "(", "void", ")"] ∧
      entryPointName major minor n = some ("PyInit_" ++ n)) ∧
    (major < 3 →
      expandCall (table major minor) "MOD_INIT" [[n]] =
        some ["PyMODINIT_FUNC", "init" ++ n, "(", "void", ")"] ∧
      entryPointName major minor n = some ("init" ++ n)) ∧
    (∀ n2 : String, n ≠ n2 → entryPointName major minor n ≠ entryPointName major minor n2) := by
  have modern : ∀ m : String, 3 ≤ major →
      expandCall (table major minor) "MOD_INIT" [[m]] =
        some ["PyMODINIT_FUNC", "PyInit_" ++ m, "(", "void", ")"] := fun m h3 => by
    rw [expandCall_congr _ _ _ _ (table_late_eq_early_defs major minor h3).1]; rfl
  have legacy : ∀ m : String, major < 3 →
      expandCall (table major minor) "MOD_INIT" [[m]] =
        some ["PyMODINIT_FUNC", "init" ++ m, "(", "void", ")"] := fun m h3 => by
    rw [table_legacy major minor h3]; rfl
  refine ⟨fun h3 => ⟨modern n h3, ?_⟩, fun h3 => ⟨legacy n h3, ?_⟩, fun n2 hne he => ?_⟩
  · simp [entryPointName, modern n h3]
  · simp [entryPointName, legacy n h3]
  · by_cases h3 : 3 ≤ major
    · simp only [entryPointName, modern _ h3] at he
      simp at he
      exact hne (string_append_left_cancel _ _ _ he)
    · simp only [entryPointName, legacy _ (Nat.lt_of_not_le h3)] at he
      simp at he
      exact hne (string_append_left_cancel _ _ _ he)

/-- C4 at the module name `aerospike`, for versions 3.9 and 2.7. -/
theorem MOD_INIT_expansion_witness :
    expandCall (table 3 9) "MOD_INIT" [["aerospike"]] =
      some ["PyMODINIT_FUNC", "PyInit_aerospike", "(", "void", ")"] ∧
    expandCall (table 2 7) "MOD_INIT" [["aerospike"]] =
      some ["PyMODINIT_FUNC", "initaerospike", "(", "void", ")"] ∧
    entryPointName 3 9 "aerospike" ≠ entryPointName 3 9 "aerospikf" :=
  ⟨((MOD_INIT_expansion 3 9 "aerospike").1 (by decide)).1,
    ((MOD_INIT_expansion 2 7 "aerospike").2.1 (by decide)).1,
    (MOD_INIT_expansion 3 9 "aerospike").2.2 "aerospikf" (by decide)⟩

/-- C5: when the major version is at least 3, for every argument tuple
`(ob, name, doc, size, methods, clear)` the invocation of `MOD_DEF` is
replaced by the declaration of the record `moduledef` with the initialisers
`PyModuleDef_HEAD_INIT, name, doc, size, methods, NULL, NULL, clear` in this
order, followed by `ob = PyModule_Create(&moduledef);`.  When each of `name`,
`doc`, `size`, `methods` and `clear` is one expression, the initialiser list
has these eight entries, and by position `name`, `doc`, `size` and `methods`
initialise `m_name`, `m_doc`, `m_size` and `m_methods`, the next two fields
receive `NULL`, and `clear` initialises `m_clear`. -/
theorem MOD_DEF_modern_record (major minor : Nat) (ob name doc size methods clear : List Token)
    (h3 : 3 ≤ major) :
    ∃ toks : List Token,
      expandCall (table major minor) "MOD_DEF" [ob, name, doc, size, methods, clear] = some toks ∧
      toks =
        ["static", "struct", "PyModuleDef", "moduledef", "=", "\x7b",
          "PyModuleDef_HEAD_INIT", ","] ++ name ++ [","] ++ doc ++ [","] ++ size ++ [","] ++
          methods ++ [",", "NULL", ",", "NULL", ","] ++ clear ++ ["\x7d", ";"] ++
          ob ++ ["=", "PyModule_Create", "(", "&", "moduledef", ")", ";"] ∧
      (PlainArg name → PlainArg doc → PlainArg size → PlainArg methods → PlainArg clear →
        recordInitialisers toks =
          [["PyModuleDef_HEAD_INIT"], name, doc, size, methods, ["NULL"], ["NULL"], clear] ∧
        fieldInit PyModuleDef_fields (recordInitialisers toks) "m_base" =
          some ["PyModuleDef_HEAD_INIT"] ∧
        fieldInit PyModuleDef_fields (recordInitialisers toks) "m_name" = some name ∧
        fieldInit PyModuleDef_fields (recordInitialisers toks) "m_doc" = some doc ∧
        fieldInit PyModuleDef_fields (recordInitialisers toks) "m_size" = some size ∧
        fieldInit PyModuleDef_fields (recordInitialisers toks) "m_methods" = some methods ∧
        fieldInit PyModuleDef_fields (recordInitialisers toks) "m_slots" = some ["NULL"] ∧
        fieldInit PyModuleDef_fields (recordInitialisers toks) "m_traverse" = some ["NULL"] ∧
        fieldInit PyModuleDef_fields (recordInitialisers toks) "m_clear" = some clear ∧
        fieldInit PyModuleDef_fields (recordInitialisers toks) "m_free" = none) := by
  refine ⟨_, ?_, rfl, fun hn hd hs hm hc => ?_⟩
  · rw [expandCall_congr _ _ _ _ (table_late_eq_early_defs major minor h3).2.1]
    exact expandCall_MOD_DEF_modern ob name doc size methods clear
  · rw [recordInitialisers_modern ob name doc size methods clear hn hd hs hm hc]
    simp [fieldInit, PyModuleDef_fields]

/-- C5 at a module with an empty method table (`no_methods` names a table
that holds the end marker alone) and without clear callback (`NULL`), for
version 3.9. -/
theorem MOD_DEF_modern_record_witness :
    ∃ toks : List Token,
      expandCall (table 3 9) "MOD_DEF"
        [["m"], ["MOD_NAME"], ["MOD_DOC"], ["-", "1"], ["no_methods"], ["NULL"]] = some toks ∧
      toks =
        ["static", "struct", "PyModuleDef", "moduledef", "=", "\x7b",
          "PyModuleDef_HEAD_INIT", ",", "MOD_NAME", ",", "MOD_DOC", ",", "-", "1", ",",
          "no_methods", ",", "NULL", ",", "NULL", ",", "NULL", "\x7d", ";",
          "m", "=", "PyModule_Create", "(", "&", "moduledef", ")", ";"] ∧
      fieldInit PyModuleDef_fields (recordInitialisers toks) "m_methods" = some ["no_methods"] ∧
      fieldInit PyModuleDef_fields (recordInitialisers toks) "m_clear" = some ["NULL"] := by
  obtain ⟨toks, h1, h2, h3⟩ :=
    MOD_DEF_modern_record 3 9 ["m"] ["MOD_NAME"] ["MOD_DOC"] ["-", "1"] ["no_methods"] ["NULL"]
      (by decide)
  have h4 := h3 (by decide) (by decide) (by decide) (by decide) (by decide)
  exact ⟨toks, h1, h2, h4.2.2.2.2.2.1, h4.2.2.2.2.2.2.2.2.1⟩

/-- C6: for every value expression `v`, `MOD_SUCCESS_VAL(v)` is replaced by
`v` itself when the major version is at least 3, and by nothing when it is
below 3. -/
theorem MOD_SUCCESS_VAL_expansion (major minor : Nat) (v : List Token) :
    (3 ≤ major → expandCall (table major minor) "MOD_SUCCESS_VAL" [v] = some v) ∧
    (major < 3 → expandCall (table major minor) "MOD_SUCCESS_VAL" [v] = some []) := by
  refine ⟨fun h3 => ?_, fun h3 => ?_⟩
  · rw [expandCall_congr _ _ _ _ (table_late_eq_early_defs major minor h3).2.2]
    exact expandCall_MOD_SUCCESS_VAL_modern v
  · rw [table_legacy major minor h3]
    exact expandCall_MOD_SUCCESS_VAL_legacy v

/-- C6 at the value `m`, for versions 3.9 and 2.7. -/
theorem MOD_SUCCESS_VAL_expansion_witness :
    expandCall (table 3 9) "MOD_SUCCESS_VAL" [["m"]] = some ["m"] ∧
    expandCall (table 2 7) "MOD_SUCCESS_VAL" [["m"]] = some [] :=
  ⟨(MOD_SUCCESS_VAL_expansion 3 9 ["m"]).1 (by decide),
    (MOD_SUCCESS_VAL_expansion 2 7 ["m"]).2 (by decide)⟩

/-- C7: for every version, every host runtime and every object handle, the
call `PyString_AsString(obj)` compiled after the header returns what the call
selected for the version returns on that handle: `PyUnicode_AsUTF8(obj)` when
the major version is at least 3 (with or without the cast), the native
`PyString_AsString(obj)` when it is below 3.  Every result, the failure result
included, is passed on as it is. -/
theorem PyString_AsString_transparent {α β : Type} (host : String → α → β)
    (major minor : Nat) (obj : α) :
    (3 ≤ major →
      callPyString_AsString major minor host obj = some (host "PyUnicode_AsUTF8" obj)) ∧
    (major < 3 →
      callPyString_AsString major minor host obj = some (host "PyString_AsString" obj)) ∧
    (∀ r : β, callPyString_AsString major minor host obj = some r ↔
      host (if 3 ≤ major then "PyUnicode_AsUTF8" else "PyString_AsString") obj = r) := by
  have modern : 3 ≤ major →
      callPyString_AsString major minor host obj = some (host "PyUnicode_AsUTF8" obj) := by
    intro h3
    by_cases h7 : minor < 7
    · rw [callPyString_AsString, table_modern_early major minor h3 h7]; rfl
    · rw [callPyString_AsString, table_modern_late major minor h3 (by omega)]; rfl
  have legacy : major < 3 →
      callPyString_AsString major minor host obj = some (host "PyString_AsString" obj) := by
    intro h3
    rw [callPyString_AsString, table_legacy major minor h3]; rfl
  refine ⟨modern, legacy, fun r => ?_⟩
  by_cases h3 : 3 ≤ major
  · simp [modern h3, h3]
  · simp [legacy (Nat.lt_of_not_le h3), h3]

/-- C7 on a text object and on an object that is not textual, for versions
3.6, 3.7 and 2.7: the buffer and the failure result both come back as the
host call gives them. -/
theorem PyString_AsString_transparent_witness :
    callPyString_AsString 3 6 (hostRuntime 3) (.text bytesHello) =
      some (hostRuntime 3 "PyUnicode_AsUTF8" (.text bytesHello)) ∧
    callPyString_AsString 3 7 (hostRuntime 3) (.text bytesHello) =
      some (hostRuntime 3 "PyUnicode_AsUTF8" (.text bytesHello)) ∧
    callPyString_AsString 3 7 (hostRuntime 3) .other = some none ∧
    callPyString_AsString 2 7 (hostRuntime 2) .other = some none :=
  ⟨(PyString_AsString_transparent (hostRuntime 3) 3 6 (.text bytesHello)).1 (by decide),
    (PyString_AsString_transparent (hostRuntime 3) 3 7 (.text bytesHello)).1 (by decide),
    (PyString_AsString_transparent (hostRuntime 3) 3 7 .other).1 (by decide),
    (PyString_AsString_transparent (hostRuntime 2) 2 7 .other).2.1 (by decide)⟩

/-- C8: for every version and every string `s` without a zero byte, string
extraction, in the form selected for the version, applied to a host text
object that wraps `s` gives a buffer that holds the bytes of `s` followed by
one terminating NUL: the buffer is `s ++ [0]` and its contents as a string
are `s`. -/
theorem extraction_round_trip (major minor : Nat) (s : List Nat) (hs : 0 ∉ s) :
    callPyString_AsString major minor (hostRuntime major) (.text s) = some (some (s ++ [0])) ∧
    cstr (s ++ [0]) = s := by
  refine ⟨?_, cstr_append_nul s hs⟩
  by_cases h3 : 3 ≤ major
  · by_cases h7 : minor < 7
    · rw [callPyString_AsString, table_modern_early major minor h3 h7]
      simp [replaceAll, resolve, lookup, table, preprocess, header, step, versionEnv,
        PPState.active, evalCall, hostRuntime, hostExtract, h3]
    · rw [callPyString_AsString, table_modern_late major minor h3 (by omega)]
      simp [replaceAll, resolve, lookup, table, preprocess, header, step, versionEnv,
        PPState.active, evalCall, hostRuntime, hostExtract, h3]
  · rw [callPyString_AsString, table_legacy major minor (Nat.lt_of_not_le h3)]
    simp [replaceAll, resolve, lookup, table, preprocess, header, step, versionEnv,
      PPState.active, evalCall, hostRuntime, hostExtract, h3]

/-- C8 at the string `hello`, for versions 3.6, 3.7 and 2.7. -/
theorem extraction_round_trip_witness :
    callPyString_AsString 3 6 (hostRuntime 3) (.text bytesHello) =
      some (some [104, 101, 108, 108, 111, 0]) ∧
    callPyString_AsString 3 7 (hostRuntime 3) (.text bytesHello) =
      some (some [104, 101, 108, 108, 111, 0]) ∧
    callPyString_AsString 2 7 (hostRuntime 2) (.text bytesHello) =
      some (some [104, 101, 108, 108, 111, 0]) ∧
    cstr [104, 101, 108, 108, 111, 0] = bytesHello :=
  ⟨(extraction_round_trip 3 6 bytesHello (by decide)).1,
    (extraction_round_trip 3 7 bytesHello (by decide)).1,
    (extraction_round_trip 2 7 bytesHello (by decide)).1,
    (extraction_round_trip 3 7 bytesHello (by decide)).2⟩

/-- C9: when the major version is below 3, for every argument tuple
`(ob, name, doc, size, methods, clear)` the invocation of `MOD_DEF` is
replaced by `ob = Py_InitModule3(name, methods, doc);`, the arguments in the
order name, methods, doc; the replacement list declares no record, and the
replacement is the same whatever `size` and `clear` are. -/
theorem MOD_DEF_legacy_call (major minor : Nat) (ob name doc size methods clear : List Token)
    (h3 : major < 3) :
    expandCall (table major minor) "MOD_DEF" [ob, name, doc, size, methods, clear] =
      some (ob ++ ["=", "Py_InitModule3", "("] ++ name ++ [","] ++ methods ++ [","] ++ doc ++
            [")", ";"]) ∧
    lookup (table major minor) "MOD_DEF" =
      some ⟨some ["ob", "name", "doc", "size", "methods", "clear"],
        ["ob", "=", "Py_InitModule3", "(", "name", ",", "methods", ",", "doc", ")", ";"]⟩ ∧
    (∀ size2 clear2 : List Token,
      expandCall (table major minor) "MOD_DEF" [ob, name, doc, size2, methods, clear2] =
        expandCall (table major minor) "MOD_DEF" [ob, name, doc, size, methods, clear]) := by
  rw [table_legacy major minor h3]
  refine ⟨expandCall_MOD_DEF_legacy ob name doc size methods clear, by decide, fun s2 c2 => ?_⟩
  rw [expandCall_MOD_DEF_legacy, expandCall_MOD_DEF_legacy]

/-- C9 at version 2.7: the replacement, and the same replacement after `size`
and `clear` are changed. -/
theorem MOD_DEF_legacy_call_witness :
    expandCall (table 2 7) "MOD_DEF"
        [["m"], ["MOD_NAME"], ["MOD_DOC"], ["-", "1"], ["methods"], ["NULL"]] =
      some ["m", "=", "Py_InitModule3", "(", "MOD_NAME", ",", "methods", ",", "MOD_DOC", ")",
        ";"] ∧
    expandCall (table 2 7) "MOD_DEF"
        [["m"], ["MOD_NAME"], ["MOD_DOC"], ["0"], ["methods"], ["on_clear"]] =
      expandCall (table 2 7) "MOD_DEF"
        [["m"], ["MOD_NAME"], ["MOD_DOC"], ["-", "1"], ["methods"], ["NULL"]] :=
  ⟨(MOD_DEF_legacy_call 2 7 ["m"] ["MOD_NAME"] ["MOD_DOC"] ["-", "1"] ["methods"] ["NULL"]
      (by decide)).1,
    (MOD_DEF_legacy_call 2 7 ["m"] ["MOD_NAME"] ["MOD_DOC"] ["-", "1"] ["methods"] ["NULL"]
      (by decide)).2.2 ["0"] ["on_clear"]⟩

/-- C10: the selection is not a comparison of the version with 3.7.  For a
major version of at least 3, `PyString_AsString` and `PyEval_InitThreads`
resolve as they do for `(3, minor)`, and two such versions whose minor
versions fall on the same side of 7 resolve alike; version 4.0 gets the forms
of the versions before 3.7; and for every version `PyEval_InitThreads` is
redefined exactly when `PyString_AsString` has the form with the cast. -/
theorem version_selection_by_two_tests (major minor : Nat) :
    (3 ≤ major →
      resolve (table major minor) "PyString_AsString" =
        resolve (table 3 minor) "PyString_AsString" ∧
      resolve (table major minor) "PyEval_InitThreads" =
        resolve (table 3 minor) "PyEval_InitThreads") ∧
    (∀ major2 minor2 : Nat, 3 ≤ major → 3 ≤ major2 → (minor < 7 ↔ minor2 < 7) →
      resolve (table major minor) "PyString_AsString" =
        resolve (table major2 minor2) "PyString_AsString" ∧
      resolve (table major minor) "PyEval_InitThreads" =
        resolve (table major2 minor2) "PyEval_InitThreads") ∧
    (resolve (table 4 0) "PyString_AsString" = formPlain ∧
      lookup (table 4 0) "PyEval_InitThreads" = none ∧
      resolve (table 4 0) "PyEval_InitThreads" = ["PyEval_InitThreads"]) ∧
    (lookup (table major minor) "PyEval_InitThreads" = some ⟨none, ["Py_Initialize"]⟩ ↔
      resolve (table major minor) "PyString_AsString" = formCast) ∧
    (lookup (table major minor) "PyEval_InitThreads" ≠ none ↔
      resolve (table major minor) "PyString_AsString" = formCast) := by
  have same : ∀ M1 m1 M2 m2 : Nat, 3 ≤ M1 → 3 ≤ M2 → (m1 < 7 ↔ m2 < 7) →
      table M1 m1 = table M2 m2 := by
    intro M1 m1 M2 m2 h1 h2 hm
    by_cases h7 : m1 < 7
    · rw [table_modern_early M1 m1 h1 h7, table_modern_early M2 m2 h2 (hm.mp h7)]
    · rw [table_modern_late M1 m1 h1 (by omega), table_modern_late M2 m2 h2 (by omega)]
  refine ⟨fun h3 => ?_, fun M2 m2 h3 h3b hm => ?_, by decide, ?_, ?_⟩
  · rw [same major minor 3 minor h3 (by decide) Iff.rfl]
    exact ⟨rfl, rfl⟩
  · rw [same major minor M2 m2 h3 h3b hm]
    exact ⟨rfl, rfl⟩
  · by_cases h3 : 3 ≤ major
    · by_cases h7 : minor < 7
      · rw [table_modern_early major minor h3 h7]; decide
      · rw [table_modern_late major minor h3 (by omega)]; decide
    · rw [table_legacy major minor (Nat.lt_of_not_le h3)]; decide
  · by_cases h3 : 3 ≤ major
    · by_cases h7 : minor < 7
      · rw [table_modern_early major minor h3 h7]; decide
      · rw [table_modern_late major minor h3 (by omega)]; decide
    · rw [table_legacy major minor (Nat.lt_of_not_le h3)]; decide

/-- C10 at versions 4.0 and 3.0, and 5.12 and 3.12. -/
theorem version_selection_by_two_tests_witness :
    (resolve (table 4 0) "PyString_AsString" = resolve (table 3 0) "PyString_AsString" ∧
      resolve (table 4 0) "PyEval_InitThreads" = resolve (table 3 0) "PyEval_InitThreads") ∧
    (resolve (table 5 12) "PyString_AsString" = resolve (table 3 12) "PyString_AsString" ∧
      resolve (table 5 12) "PyEval_InitThreads" = resolve (table 3 12) "PyEval_InitThreads") ∧
    (resolve (table 4 0) "PyString_AsString" = resolve (table 3 6) "PyString_AsString" ∧
      resolve (table 4 0) "PyEval_InitThreads" = resolve (table 3 6) "PyEval_InitThreads") :=
  ⟨(version_selection_by_two_tests 4 0).1 (by decide),
    (version_selection_by_two_tests 5 12).1 (by decide),
    (version_selection_by_two_tests 4 0).2.1 3 6 (by decide) (by decide) (by decide)⟩

end CompatShim
